/-
Verification of the IBM-Verify extraction client (scripts/ directory).

Shallow embedding of the parts of the code the spec's claims are about:

* `fetch_applications.py`:
  - `IBMVerifyClient._get_access_token` (token lifecycle),
  - `IBMVerifyClient.fetch_applications` (offset/limit pagination with
    link-derived identifier extraction).
* `fetch_groups.py`: `fetch_groups` (SCIM startIndex/count pagination).
* `fetch_dynamic_groups.py`: `fetch_dynamic_groups` and `main`
  (offset/limit pagination with a distinguished 401 PermissionError).
* `fetch_application_details.py`: `fetch_application_details` and the
  thread-pool fan-out in `main`.

Network responses are modelled as oracles (functions from the request
cursor to a decoded response or a transport failure); the loops of the
Python generators become fuel-indexed recursive functions whose results
record the items yielded, the cursors fetched, and how the loop ended.
-/
import Mathlib

namespace IamVision

/-! ### Applications endpoint: payloads and pages (`fetch_applications.py`) -/

/-- One element of `data['_embedded']['applications']` as the pagination
loop inspects it: an optional direct `id` field and the optional
`_links.self` object. `selfHref? = some h` models `'_links' in app and
'self' in app['_links']` holding with `app['_links']['self'].get('href', '')
= h` (a `self` object without an `href` key is `some ""`, matching the
`get('href', '')` default). All other payload fields are opaque and
collected in `rest`. -/
structure AppPayload where
  id? : Option String
  selfHref? : Option String
  rest : String
  deriving Repr, DecidableEq

/-- One decoded page body for `GET {applications_url}?limit&offset`:
`applications` is `data.get('_embedded', {}).get('applications', [])`
(missing `_embedded` or `applications` keys collapse to `[]`), and
`total?` models the optional `total` key read by `data.get('total', 0)`. -/
structure AppsPage where
  applications : List AppPayload
  total? : Option Nat
  deriving Repr, DecidableEq

/-- Outcome of one `client._make_request` call: either the decoded JSON
body, or an exception (HTTP error status after retries, transport
failure, or JSON decode failure — the loop's `except Exception` treats
them all alike). -/
inductive ReqOutcome (α : Type) where
  | ok (val : α)
  | exn
  deriving Repr, DecidableEq

/-- Model of Python `s.split(sep)` for a one-character separator, over
the character list of the string: `splitSegs c l` is the list of maximal
segments of `l` between occurrences of `c`. Like Python `str.split`
with an explicit separator it never returns an empty list (an empty
input gives `[[]]`, matching `''.split('/') == ['']`). -/
def splitSegs (sep : Char) : List Char → List (List Char)
  | [] => [[]]
  | c :: cs =>
      let rest := splitSegs sep cs
      if c = sep then [] :: rest
      else
        match rest with
        | [] => [[c]]
        | s :: ss => (c :: s) :: ss

/-- Last path segment of a URL, as computed by `href.split('/')[-1]`
(`split` never returns an empty list, so `[-1]` is total and the
`getLastD` default is never used). -/
def lastHrefSegment (href : String) : String :=
  String.mk ((splitSegs '/' href.data).getLastD [])

/-- Per-item identifier extraction of `fetch_applications` (lines
293-300): when `_links.self` is present and its `href` is non-empty, the
final path segment of the `href` is stored under the payload's `id` key;
otherwise the payload is yielded unchanged. -/
def deriveAppId (app : AppPayload) : AppPayload :=
  match app.selfHref? with
  | some href =>
      if href = "" then app
      else { app with id? := some (lastHrefSegment href) }
  | none => app

/-- Result of one run of the `fetch_applications` generator: the `data`
payloads of the records yielded (each is wrapped by the code in
`{'fetch_timestamp': ..., 'data': app}`; the timestamp is irrelevant to
the claims), the offsets at which page requests were issued, in request
order, and whether the loop reached one of its `break` statements
(`completed = false` only when the modelling fuel ran out, which has no
Python counterpart). -/
structure AppsResult where
  items : List AppPayload
  offsets : List Nat
  completed : Bool
  deriving Repr, DecidableEq

/-- The pagination loop of `IBMVerifyClient.fetch_applications` (lines
267-324), over a response oracle `server`. Starting from `offset`, each
iteration requests the page at the current offset; an exception logs and
breaks, an empty `applications` array breaks, otherwise the page's items
are yielded (after `deriveAppId`), and the loop breaks when
`offset + limit >= data.get('total', 0)`, else sets `offset += limit`. -/
def fetch_applications_loop (server : Nat → ReqOutcome AppsPage) (limit : Nat) :
    Nat → Nat → AppsResult
  | 0, _ => ⟨[], [], false⟩
  | fuel + 1, offset =>
    match server offset with
    | .exn => ⟨[], [offset], true⟩
    | .ok page =>
      if page.applications.isEmpty then ⟨[], [offset], true⟩
      else if page.total?.getD 0 ≤ offset + limit then
        ⟨page.applications.map deriveAppId, [offset], true⟩
      else
        ⟨page.applications.map deriveAppId
            ++ (fetch_applications_loop server limit fuel (offset + limit)).items,
          offset :: (fetch_applications_loop server limit fuel (offset + limit)).offsets,
          (fetch_applications_loop server limit fuel (offset + limit)).completed⟩

/-- Full `fetch_applications` traversal: the loop above started at
`offset = 0` (line 260). -/
def fetch_applications (server : Nat → ReqOutcome AppsPage) (limit fuel : Nat) :
    AppsResult :=
  fetch_applications_loop server limit fuel 0

/-! ### Groups endpoint: SCIM pagination (`fetch_groups.py`) -/

/-- One element of the groups array as the enrichment step inspects it:
optional `id` and `groupId` keys, remaining fields opaque. -/
structure GroupPayload where
  id? : Option String
  groupId? : Option String
  rest : String
  deriving Repr, DecidableEq

/-- Decoded body of one `GET {groups_url}?count&startIndex` response.
The code handles both a bare JSON list (`isinstance(data, list)`) and a
dict whose items sit under the first present key among `groups`,
`Groups`, `Resources`, with an optional `totalResults` key. -/
inductive ScimData where
  | arr (items : List GroupPayload)
  | obj (groups? : Option (List GroupPayload)) (capGroups? : Option (List GroupPayload))
      (resources? : Option (List GroupPayload)) (totalResults? : Option Nat)
  deriving Repr, DecidableEq

/-- Item extraction of `fetch_groups` (lines 77-80): a bare list is
taken whole; on a dict the code computes
`data.get('groups', data.get('Groups', data.get('Resources', [])))`. -/
def scimItems : ScimData → List GroupPayload
  | .arr items => items
  | .obj groups? capGroups? resources? _ =>
      groups?.getD (capGroups?.getD (resources?.getD []))

/-- One record yielded by `fetch_groups` (lines 91-95): the `group_id`
field is `group.get('id', group.get('groupId'))` and `data` is the raw
payload (the `fetch_timestamp` field is irrelevant to the claims and
omitted). -/
structure GroupRecord where
  group_id : Option String
  data : GroupPayload
  deriving Repr, DecidableEq

/-- Result of one run of the `fetch_groups` generator: records yielded,
the `startIndex` values at which page requests were issued, in request
order, and whether the loop reached a `break` (`completed = false` only
on fuel exhaustion, which has no Python counterpart). -/
structure ScimResult where
  records : List GroupRecord
  startIndices : List Nat
  completed : Bool
  deriving Repr, DecidableEq

/-- Enrichment of one group payload (lines 91-95). -/
def enrichGroup (g : GroupPayload) : GroupRecord :=
  ⟨g.id?.orElse fun _ => g.groupId?, g⟩

/-- The pagination loop of `fetch_groups` (lines 54-118) over a response
oracle `server` indexed by `startIndex`. Each iteration fetches the page
at the current index; an empty extracted array breaks, otherwise the
page's records are yielded; a bare-list response breaks; on a dict the
loop breaks when `totalResults == 0 or startIndex + count - 1 >=
totalResults` (with `totalResults = data.get('totalResults', 0)`), else
sets `startIndex += count`. -/
def fetch_groups_loop (server : Nat → ScimData) (count : Nat) :
    Nat → Nat → ScimResult
  | 0, _ => ⟨[], [], false⟩
  | fuel + 1, startIndex =>
    if (scimItems (server startIndex)).isEmpty then ⟨[], [startIndex], true⟩
    else
      match server startIndex with
      | .arr _ => ⟨(scimItems (server startIndex)).map enrichGroup, [startIndex], true⟩
      | .obj _ _ _ totalResults? =>
        if totalResults?.getD 0 = 0 ∨ totalResults?.getD 0 ≤ startIndex + count - 1 then
          ⟨(scimItems (server startIndex)).map enrichGroup, [startIndex], true⟩
        else
          ⟨(scimItems (server startIndex)).map enrichGroup
              ++ (fetch_groups_loop server count fuel (startIndex + count)).records,
            startIndex :: (fetch_groups_loop server count fuel (startIndex + count)).startIndices,
            (fetch_groups_loop server count fuel (startIndex + count)).completed⟩

/-- Full `fetch_groups` traversal: the loop above started at
`start_index = 1` (line 49, SCIM 1-based indexing). -/
def fetch_groups (server : Nat → ScimData) (count fuel : Nat) : ScimResult :=
  fetch_groups_loop server count fuel 1

/-! ### Token manager (`IBMVerifyClient._get_access_token`) -/

/-- Cached token state of an `IBMVerifyClient` instance: `access_token`
(`None` at construction) and `token_expires_at` (a Unix timestamp,
`0` at construction; real-valued in Python, modelled as an integer). -/
structure ClientState where
  access_token : Option String
  token_expires_at : Int
  deriving Repr, DecidableEq

/-- State of a freshly constructed client (`__init__`, lines 57-59). -/
def initialClientState : ClientState := ⟨none, 0⟩

/-- Python truthiness of `self.access_token`: `None` and the empty
string are falsy. -/
def tokenTruthy : Option String → Bool
  | none => false
  | some s => !s.isEmpty

/-- Outcome of the client-credentials grant POST, as `_get_access_token`
sees it: `httpError` covers a transport failure and a non-2xx status
(`raise_for_status`), both surfacing as a `RequestException`; `ok` is a
2xx response whose decoded JSON body has the given optional
`access_token` and `expires_in` keys. -/
inductive GrantResult where
  | httpError
  | ok (access_token? : Option String) (expires_in? : Option Int)
  deriving Repr, DecidableEq

/-- Exceptions `_get_access_token` can raise: the re-raised
`RequestException` (line 146) or the `KeyError` from
`token_data['access_token']` when the body lacks the key (line 133). -/
inductive TokenError where
  | requestException
  | keyError
  deriving Repr, DecidableEq

/-- Result of one `_get_access_token` call: the returned token or the
raised exception, the client state after the call, and how many POSTs to
the token endpoint the call performed. -/
structure TokenCallResult where
  result : Except TokenError String
  state : ClientState
  networkCalls : Nat
  deriving Repr

/-- Whether a grant outcome makes the refresh fail: the POST errored,
returned non-2xx, or its body lacks `access_token`. -/
def grantFails : GrantResult → Bool
  | .httpError => true
  | .ok none _ => true
  | .ok (some _) _ => false

/-- One call of `IBMVerifyClient._get_access_token` (lines 90-146) at
time `now` against a grant oracle. The cached token is reused when
`self.access_token and time.time() < self.token_expires_at` (line 105);
otherwise one POST is made: on failure the exception propagates and the
cached state is untouched, on success `access_token` is stored, and
`token_expires_at` becomes `now + expires_in - 60` with `expires_in =
token_data.get('expires_in', 3600)` (lines 133-137). -/
def get_access_token (st : ClientState) (now : Int) (grant : GrantResult) :
    TokenCallResult :=
  if tokenTruthy st.access_token ∧ now < st.token_expires_at then
    ⟨.ok (st.access_token.getD ""), st, 0⟩
  else
    match grant with
    | .httpError => ⟨.error .requestException, st, 1⟩
    | .ok none _ => ⟨.error .keyError, st, 1⟩
    | .ok (some tok) expires_in? =>
        let expires_in := expires_in?.getD 3600
        ⟨.ok tok, ⟨some tok, now + expires_in - 60⟩, 1⟩

/-! ### Dynamic groups endpoint (`fetch_dynamic_groups.py`) -/

/-- One dynamic-group payload as the enrichment step inspects it:
optional `id`, `groupId`, `name`, `displayName` keys, rest opaque. -/
structure DynGroupPayload where
  id? : Option String
  groupId? : Option String
  name? : Option String
  displayName? : Option String
  rest : String
  deriving Repr, DecidableEq

/-- Decoded body of one dynamic-groups page: either a bare JSON list or
a dict whose items sit under the first present key among
`dynamicGroups`, `groups` (lines 99-102), with an optional `total`. -/
inductive DynBody where
  | arr (items : List DynGroupPayload)
  | obj (dynamicGroups? : Option (List DynGroupPayload))
      (groups? : Option (List DynGroupPayload)) (total? : Option Nat)
  deriving Repr, DecidableEq

/-- Item extraction of `fetch_dynamic_groups` (lines 99-102):
`data.get('dynamicGroups', data.get('groups', []))` on a dict. -/
def dynItems : DynBody → List DynGroupPayload
  | .arr items => items
  | .obj dynamicGroups? groups? _ => dynamicGroups?.getD (groups?.getD [])

/-- Outcome of one `requests.get` against the dynamic-groups endpoint:
a response with an HTTP status and (for 2xx) a decoded body, or a raised
transport exception (`RequestException`). -/
inductive DynHttp where
  | response (status : Nat) (body : DynBody)
  | netError
  deriving Repr, DecidableEq

/-- Exceptions the `fetch_dynamic_groups` generator can raise: the
distinguished `PermissionError` carrying the remediation message (lines
88-91), or a generic `RequestException` re-raised at lines 133-135. -/
inductive DynError where
  | permissionError (msg : String)
  | requestException
  deriving Repr, DecidableEq

/-- Remediation message of the `PermissionError` raised on HTTP 401
(lines 89-91). -/
def abacRemediationMsg : String :=
  "API client requires ABAC entitlements to access dynamic groups. Contact your IBM Security Verify administrator to grant the necessary permissions."

/-- How one run of the `fetch_dynamic_groups` generator ended: a normal
`break`, a raised exception, or fuel exhaustion (no Python
counterpart). -/
inductive DynTermination where
  | finished
  | raised (e : DynError)
  | fuelOut
  deriving Repr, DecidableEq

/-- Whether a termination is the distinguished entitlement error. -/
def isEntitlementRaise : DynTermination → Bool
  | .raised (.permissionError _) => true
  | _ => false

/-- One record yielded by `fetch_dynamic_groups` (lines 112-117):
`group_id = group.get('id', group.get('groupId'))`, `group_name =
group.get('name', group.get('displayName'))`, raw payload under `data`
(`fetch_timestamp` omitted as irrelevant to the claims). -/
structure DynRecord where
  group_id : Option String
  group_name : Option String
  data : DynGroupPayload
  deriving Repr, DecidableEq

/-- Enrichment of one dynamic-group payload (lines 112-117). -/
def enrichDynGroup (g : DynGroupPayload) : DynRecord :=
  ⟨g.id?.orElse fun _ => g.groupId?, g.name?.orElse fun _ => g.displayName?, g⟩

/-- Result of one run of the `fetch_dynamic_groups` generator. -/
structure DynResult where
  records : List DynRecord
  offsets : List Nat
  termination : DynTermination
  deriving Repr, DecidableEq

/-- The pagination loop of `fetch_dynamic_groups` (lines 66-135) over a
response oracle indexed by offset. Each iteration issues the page
request: a transport exception is logged and re-raised (lines 133-135);
a status of exactly 401 raises the distinguished `PermissionError`
(lines 86-91); any other error status makes `raise_for_status` raise,
which is also logged and re-raised; otherwise the body's items are
extracted — an empty array breaks, the records are yielded, a bare-list
body breaks, and on a dict the loop breaks when
`total == 0 or offset + limit >= total` (lines 122-126), else sets
`offset += limit`. -/
def fetch_dynamic_groups_loop (server : Nat → DynHttp) (limit : Nat) :
    Nat → Nat → DynResult
  | 0, _ => ⟨[], [], .fuelOut⟩
  | fuel + 1, offset =>
    match server offset with
    | .netError => ⟨[], [offset], .raised .requestException⟩
    | .response status body =>
      if status = 401 then ⟨[], [offset], .raised (.permissionError abacRemediationMsg)⟩
      else if 400 ≤ status then ⟨[], [offset], .raised .requestException⟩
      else if (dynItems body).isEmpty then ⟨[], [offset], .finished⟩
      else
        match body with
        | .arr _ => ⟨(dynItems body).map enrichDynGroup, [offset], .finished⟩
        | .obj _ _ total? =>
          if total?.getD 0 = 0 ∨ total?.getD 0 ≤ offset + limit then
            ⟨(dynItems body).map enrichDynGroup, [offset], .finished⟩
          else
            ⟨(dynItems body).map enrichDynGroup
                ++ (fetch_dynamic_groups_loop server limit fuel (offset + limit)).records,
              offset :: (fetch_dynamic_groups_loop server limit fuel (offset + limit)).offsets,
              (fetch_dynamic_groups_loop server limit fuel (offset + limit)).termination⟩

/-- Full `fetch_dynamic_groups` traversal: the loop above started at
`offset = 0` (line 61). -/
def fetch_dynamic_groups (server : Nat → DynHttp) (limit fuel : Nat) : DynResult :=
  fetch_dynamic_groups_loop server limit fuel 0

/-- What `main` of `fetch_dynamic_groups.py` (lines 180-194) does with
the traversal outcome: on success it saves the records and returns exit
code 0; a `PermissionError` is caught, reported with the remediation
hint, and turned into exit code 1; any other exception is uncaught and
propagates out of `main` (the interpreter then exits non-zero with a
traceback, a generic failure rather than the distinguished report). -/
inductive MainOutcome where
  | exitCode (n : Nat)
  | uncaughtException (e : DynError)
  deriving Repr, DecidableEq

/-- Exit behaviour of `main` in `fetch_dynamic_groups.py` as a function
of the traversal result (the `fuelOut` artifact is mapped to the success
path; no theorem relies on it). -/
def dyn_main (server : Nat → DynHttp) (limit fuel : Nat) : MainOutcome :=
  match (fetch_dynamic_groups server limit fuel).termination with
  | .finished => .exitCode 0
  | .raised (.permissionError _) => .exitCode 1
  | .raised .requestException => .uncaughtException .requestException
  | .fuelOut => .exitCode 0

/-! ### Per-application detail fetch and fan-out (`fetch_application_details.py`) -/

/-- Outcome of one `client._make_request` call in the detail fetcher,
with HTTP 404 distinguished in the model (the environment knows whether
the failure was a 404) so that theorems can ask whether the code
distinguishes it: in the Python code both `notFound` and `err` surface
as an exception from `raise_for_status`. -/
inductive DetailReq (α : Type) where
  | ok (val : α)
  | notFound
  | err
  deriving Repr, DecidableEq

/-- Whether a detail request outcome raises in the Python code. -/
def DetailReq.fails {α : Type} : DetailReq α → Bool
  | .ok _ => false
  | .notFound => true
  | .err => true

/-- Body of `GET {applications_url}/{app_id}` as the function mutates
it: the optional `entitlements` and `sso_configuration` keys (absent in
the upstream response, written by lines 58/63 and 71/76), rest opaque.
The SSO configuration is modelled as an opaque JSON dict, a list of
key/value pairs, so that the empty-dict default is expressible. -/
structure DetailData where
  payload : String
  entitlements? : Option (List String)
  ssoConfiguration? : Option (List (String × String))
  deriving Repr, DecidableEq

/-- Responses of the three requests `fetch_application_details` makes
for one application id: the main detail GET, the `/entitlements` GET
(its body modelled as the optional `entitlements` key read by
`entitlements.get('entitlements', [])`), and the `/sso` GET. -/
structure AppDetailServer where
  detail : DetailReq DetailData
  entitlements : DetailReq (Option (List String))
  sso : DetailReq (List (String × String))
  deriving Repr, DecidableEq

/-- One record returned by `fetch_application_details` (lines 79-83);
`fetch_timestamp` is omitted as irrelevant to the claims. -/
structure AppDetailRecord where
  application_id : String
  data : DetailData
  deriving Repr, DecidableEq

/-- The `fetch_application_details` function (lines 32-89) for one
application id against a response oracle. The main detail fetch is
requested first; if it raises (404 included — the blanket
`except Exception` at line 85 treats a 404 like any other failure) the
function logs and returns `None`. Otherwise the subsidiary entitlements
fetch is attempted: on success `data['entitlements'] =
entitlements.get('entitlements', [])`, on any failure the key is
backfilled with `[]` (lines 54-63); then the SSO fetch: on success
`data['sso_configuration'] = sso_config`, on any failure backfilled with
`{}` (lines 67-76). -/
def fetch_application_details (server : AppDetailServer) (app_id : String) :
    Option AppDetailRecord :=
  match server.detail with
  | .notFound => none
  | .err => none
  | .ok data =>
    let data :=
      match server.entitlements with
      | .ok entBody => { data with entitlements? := some (entBody.getD []) }
      | .notFound => { data with entitlements? := some [] }
      | .err => { data with entitlements? := some [] }
    let data :=
      match server.sso with
      | .ok ssoBody => { data with ssoConfiguration? := some ssoBody }
      | .notFound => { data with ssoConfiguration? := some [] }
      | .err => { data with ssoConfiguration? := some [] }
    some ⟨app_id, data⟩

/-- The parallel fan-out of `main` (lines 164-190): one
`fetch_application_details` task per application id, results keyed by
id. The thread pool's completion order is unspecified; outcome counts
and per-id outcomes are order-independent, so the model lists outcomes
in submission order. `future.result()` cannot re-raise here because
`fetch_application_details` catches every exception and returns `None`
instead, so the fan-out is a total function. -/
def detail_fan_out (servers : String → AppDetailServer) (ids : List String) :
    List (String × Option AppDetailRecord) :=
  ids.map fun app_id => (app_id, fetch_application_details (servers app_id) app_id)

/-! ### Concrete response oracles used by witnesses and counterexamples -/

/-- An application payload with no direct id and no self link. -/
def sampleApp : AppPayload := ⟨none, none, "app payload"⟩

/-- Offset/limit endpoint with 250 records and consistent `total = 250`:
the page at offset `o` carries `min 100 (250 - o)` items. -/
def exampleServer250 : Nat → ReqOutcome AppsPage := fun o =>
  .ok ⟨List.replicate (min 100 (250 - o)) sampleApp, some 250⟩

/-- Offset/limit endpoint over an empty collection: every page reports
`total = 0` and an empty item array. -/
def emptyAppsServer : Nat → ReqOutcome AppsPage := fun _ => .ok ⟨[], some 0⟩

/-- An application payload whose identifier only sits in the self-link
URL, as in the comment at `fetch_applications.py` line 292. -/
def hrefApp : AppPayload :=
  ⟨none, some "/appaccess/v1.0/applications/123456", "app payload"⟩

/-- One-page endpoint serving `hrefApp`. -/
def hrefAppsServer : Nat → ReqOutcome AppsPage := fun _ => .ok ⟨[hrefApp], some 1⟩

/-- Endpoint whose response carries a non-empty item array but no
`total` key. -/
def noTotalServer : Nat → ReqOutcome AppsPage := fun _ => .ok ⟨[sampleApp], none⟩

/-- Applications endpoint whose first page succeeds (reporting 1000
records) and whose second request raises. -/
def appsFailPage2Server : Nat → ReqOutcome AppsPage := fun o =>
  if o = 0 then .ok ⟨[sampleApp], some 1000⟩ else .exn

/-- A group payload carrying a direct id. -/
def sampleGroup : GroupPayload := ⟨some "g1", none, "group payload"⟩

/-- SCIM endpoint answering every page with 5 resources and
`totalResults = 5`. -/
def scimExample5Server : Nat → ScimData := fun _ =>
  .obj none none (some (List.replicate 5 sampleGroup)) (some 5)

/-- SCIM endpoint answering every page with an empty `Resources` array
while reporting `totalResults = 500`. -/
def scimEmpty500Server : Nat → ScimData := fun _ =>
  .obj none none (some []) (some 500)

/-- A dynamic-group payload. -/
def sampleDynGroup : DynGroupPayload :=
  ⟨some "dg1", none, some "dyn group", none, "payload"⟩

/-- Dynamic-groups endpoint answering every request with HTTP 401. -/
def dyn401Server : Nat → DynHttp := fun _ => .response 401 (.arr [])

/-- Dynamic-groups endpoint answering every request with HTTP 403. -/
def dyn403Server : Nat → DynHttp := fun _ => .response 403 (.arr [])

/-- Dynamic-groups endpoint whose first page succeeds (reporting 1000
records) and whose second request raises a transport error. -/
def dynFailPage2Server : Nat → DynHttp := fun o =>
  if o = 0 then .response 200 (.obj (some [sampleDynGroup]) none (some 1000))
  else .netError

/-- Dynamic-groups endpoint whose every request raises a transport
error. -/
def dynNetErrorServer : Nat → DynHttp := fun _ => .netError

/-- Detail responses for an application whose three requests all
succeed. -/
def okDetailData : DetailData := ⟨"app detail", none, none⟩

/-- Detail oracle whose three requests all succeed. -/
def okDetailServer : AppDetailServer :=
  ⟨.ok okDetailData, .ok (some ["entitlement1"]), .ok [("ssoKey", "ssoVal")]⟩

/-- Detail oracle whose main detail request returns HTTP 404. -/
def notFoundDetailServer : AppDetailServer := ⟨.notFound, .ok none, .ok []⟩

/-- Detail oracle whose main detail request fails with a non-404
error. -/
def errDetailServer : AppDetailServer := ⟨.err, .ok none, .ok []⟩

/-- Fan-out oracle: `app2` answers 404 on its detail request, every
other id succeeds. -/
def mixedDetailServers : String → AppDetailServer := fun app_id =>
  if app_id = "app2" then notFoundDetailServer else okDetailServer

/-- Fan-out oracle: `app2` answers a non-404 error on its detail
request, every other id succeeds. -/
def mixedErrServers : String → AppDetailServer := fun app_id =>
  if app_id = "app2" then errDetailServer else okDetailServer

/-- Detail oracle whose main request succeeds but whose subsidiary
entitlements and SSO requests both fail. -/
def subsidiaryFailServer : AppDetailServer := ⟨.ok okDetailData, .err, .notFound⟩

/-! ### Token manager lemmas -/

/-- With a truthy cached token whose expiry lies ahead, the call returns
it unchanged and performs no POST (line 105-107). -/
theorem get_access_token_cached (st : ClientState) (now : Int) (grant : GrantResult)
    (h1 : tokenTruthy st.access_token = true) (h2 : now < st.token_expires_at) :
    get_access_token st now grant = ⟨.ok (st.access_token.getD ""), st, 0⟩ := by
  unfold get_access_token
  rw [if_pos ⟨h1, h2⟩]

/-- Without a reusable token, a successful grant stores the new token
and expiry (lines 131-141). -/
theorem get_access_token_refresh_ok (st : ClientState) (now : Int)
    (tok : String) (expires_in? : Option Int)
    (h : ¬ (tokenTruthy st.access_token = true ∧ now < st.token_expires_at)) :
    get_access_token st now (.ok (some tok) expires_in?) =
      ⟨.ok tok, ⟨some tok, now + expires_in?.getD 3600 - 60⟩, 1⟩ := by
  unfold get_access_token
  rw [if_neg h]

/-- Without a reusable token, exactly one POST is made, whatever the
grant outcome. -/
theorem get_access_token_refresh_calls (st : ClientState) (now : Int)
    (grant : GrantResult)
    (h : ¬ (tokenTruthy st.access_token = true ∧ now < st.token_expires_at)) :
    (get_access_token st now grant).networkCalls = 1 := by
  unfold get_access_token
  rw [if_neg h]
  cases grant with
  | httpError => rfl
  | ok t e => cases t <;> rfl

/-- C3: calling `_get_access_token` twice while the token obtained by
the first call is still inside its expiry window performs exactly one
POST to the token endpoint in total; a refresh (one POST) happens
exactly when no truthy token is held or the stored expiry has passed;
and a successful refresh stores `token_expires_at = now + expires_in -
60`, with `expires_in` defaulting to 3600 when the grant body lacks the
key. -/
theorem C3_token_reuse_single_refresh
    (t1 t2 t3 : Int) (tok : String) (expires_in? : Option Int)
    (grant2 grant3 : GrantResult) (st : ClientState)
    (htok : tok.isEmpty = false)
    (hwin : t2 < t1 + expires_in?.getD 3600 - 60) :
    (get_access_token initialClientState t1 (.ok (some tok) expires_in?)).networkCalls
        + (get_access_token
            (get_access_token initialClientState t1 (.ok (some tok) expires_in?)).state
            t2 grant2).networkCalls = 1 ∧
    (get_access_token initialClientState t1 (.ok (some tok) expires_in?)).result = .ok tok ∧
    (get_access_token
        (get_access_token initialClientState t1 (.ok (some tok) expires_in?)).state
        t2 grant2).result = .ok tok ∧
    (get_access_token
        (get_access_token initialClientState t1 (.ok (some tok) expires_in?)).state
        t2 grant2).state
      = (get_access_token initialClientState t1 (.ok (some tok) expires_in?)).state ∧
    (get_access_token initialClientState t1 (.ok (some tok) expires_in?)).state.token_expires_at
      = t1 + expires_in?.getD 3600 - 60 ∧
    (get_access_token initialClientState t1 (.ok (some tok) none)).state.token_expires_at
      = t1 + 3600 - 60 ∧
    ((get_access_token st t3 grant3).networkCalls = 1 ↔
      ¬ (tokenTruthy st.access_token = true ∧ t3 < st.token_expires_at)) := by
  have hfresh : ¬ (tokenTruthy initialClientState.access_token = true ∧
      t1 < initialClientState.token_expires_at) := by
    simp [initialClientState, tokenTruthy]
  rw [get_access_token_refresh_ok initialClientState t1 tok expires_in? hfresh]
  have htr : tokenTruthy (some tok) = true := by
    simp [tokenTruthy, htok]
  rw [get_access_token_cached ⟨some tok, t1 + expires_in?.getD 3600 - 60⟩ t2 grant2 htr hwin]
  refine ⟨rfl, rfl, rfl, rfl, rfl, ?_, ?_⟩
  · rw [get_access_token_refresh_ok initialClientState t1 tok none hfresh]
    rfl
  · by_cases hc : tokenTruthy st.access_token = true ∧ t3 < st.token_expires_at
    · rw [get_access_token_cached st t3 grant3 hc.1 hc.2]
      simp [hc]
    · rw [get_access_token_refresh_calls st t3 grant3 hc]
      simp [hc]

/-- Witness for C3 at `t1 = 0`, `t2 = 100`, token `"tokenA"` with
`expires_in = 3600`. -/
theorem C3_token_reuse_single_refresh_witness :
    ("tokenA".isEmpty = false) ∧
    ((100 : Int) < 0 + (Option.getD (some 3600) 3600) - 60) ∧
    ((get_access_token initialClientState 0 (.ok (some "tokenA") (some 3600))).networkCalls
        + (get_access_token
            (get_access_token initialClientState 0 (.ok (some "tokenA") (some 3600))).state
            100 .httpError).networkCalls = 1 ∧
      (get_access_token initialClientState 0 (.ok (some "tokenA") (some 3600))).result
        = .ok "tokenA" ∧
      (get_access_token
          (get_access_token initialClientState 0 (.ok (some "tokenA") (some 3600))).state
          100 .httpError).result = .ok "tokenA" ∧
      (get_access_token
          (get_access_token initialClientState 0 (.ok (some "tokenA") (some 3600))).state
          100 .httpError).state
        = (get_access_token initialClientState 0 (.ok (some "tokenA") (some 3600))).state ∧
      (get_access_token initialClientState 0
          (.ok (some "tokenA") (some 3600))).state.token_expires_at
        = 0 + (Option.getD (some 3600) 3600) - 60 ∧
      (get_access_token initialClientState 0 (.ok (some "tokenA") none)).state.token_expires_at
        = 0 + 3600 - 60 ∧
      ((get_access_token initialClientState 0 .httpError).networkCalls = 1 ↔
        ¬ (tokenTruthy initialClientState.access_token = true ∧
            (0 : Int) < initialClientState.token_expires_at))) :=
  ⟨by decide, by decide,
    C3_token_reuse_single_refresh 0 100 0 "tokenA" (some 3600) .httpError .httpError
      initialClientState (by decide) (by decide)⟩

/-- C10: when the refresh attempt fails (POST errored / non-2xx, or
body without `access_token`), the call raises, leaves `access_token`
and `token_expires_at` exactly as before, still made exactly one POST,
and any later call from that state attempts the refresh again (makes a
POST). -/
theorem C10_failed_refresh_preserves_state
    (st : ClientState) (now later : Int) (grant grant2 : GrantResult)
    (hstale : ¬ (tokenTruthy st.access_token = true ∧ now < st.token_expires_at))
    (hfail : grantFails grant = true)
    (hlater : now ≤ later) :
    (get_access_token st now grant).state = st ∧
    (∃ e, (get_access_token st now grant).result = .error e) ∧
    (get_access_token st now grant).networkCalls = 1 ∧
    (get_access_token st later grant2).networkCalls = 1 := by
  have hstale2 : ¬ (tokenTruthy st.access_token = true ∧ later < st.token_expires_at) := by
    rintro ⟨hA, hB⟩
    exact hstale ⟨hA, lt_of_le_of_lt hlater hB⟩
  refine ⟨?_, ?_, get_access_token_refresh_calls st now grant hstale,
    get_access_token_refresh_calls st later grant2 hstale2⟩
  all_goals
    unfold get_access_token
    rw [if_neg hstale]
    cases grant with
    | httpError => first | rfl | exact ⟨.requestException, rfl⟩
    | ok t e =>
        cases t with
        | none => first | rfl | exact ⟨.keyError, rfl⟩
        | some s => simp [grantFails] at hfail

/-- Witness for C10: stale initial state at `now = 0`, grant body
lacking `access_token`, later call at `now = 50`. -/
theorem C10_failed_refresh_preserves_state_witness :
    (¬ (tokenTruthy initialClientState.access_token = true ∧
        (0 : Int) < initialClientState.token_expires_at)) ∧
    (grantFails (.ok none none) = true) ∧
    ((0 : Int) ≤ 50) ∧
    ((get_access_token initialClientState 0 (.ok none none)).state = initialClientState ∧
      (∃ e, (get_access_token initialClientState 0 (.ok none none)).result = .error e) ∧
      (get_access_token initialClientState 0 (.ok none none)).networkCalls = 1 ∧
      (get_access_token initialClientState 50 .httpError).networkCalls = 1) :=
  ⟨by decide, by decide, by decide,
    C10_failed_refresh_preserves_state initialClientState 0 50 (.ok none none) .httpError
      (by decide) (by decide) (by decide)⟩

/-! ### Detail fetch lemmas -/

/-- A main detail fetch that succeeds always produces a record. -/
theorem fetch_application_details_of_ok (server : AppDetailServer) (a : String)
    (d : DetailData) (h : server.detail = .ok d) :
    (fetch_application_details server a).isSome = true := by
  unfold fetch_application_details
  rw [h]
  cases server.entitlements <;> cases server.sso <;> rfl

/-- A main detail fetch that raises (404 included) makes the function
return `None`. -/
theorem fetch_application_details_of_fails (server : AppDetailServer) (a : String)
    (h : server.detail.fails = true) :
    fetch_application_details server a = none := by
  unfold fetch_application_details
  cases hd : server.detail with
  | ok d => rw [hd] at h; simp [DetailReq.fails] at h
  | notFound => rfl
  | err => rfl

/-- C7: whenever the main per-application request succeeds, the
function returns a record whose data always carries both the
`entitlements` and `sso_configuration` keys; a failing subsidiary
entitlements fetch is backfilled with `[]` and a failing SSO fetch with
`{}`, and such a failure never turns the record into a `None` (so it
cannot abort the overall fetch, which only drops `None` results). -/
theorem C7_subsidiary_failure_backfill
    (server : AppDetailServer) (app_id : String) (d : DetailData)
    (hd : server.detail = .ok d) :
    ∃ r, fetch_application_details server app_id = some r ∧
      r.application_id = app_id ∧
      r.data.entitlements?.isSome = true ∧
      r.data.ssoConfiguration?.isSome = true ∧
      (server.entitlements.fails = true → r.data.entitlements? = some []) ∧
      (server.sso.fails = true → r.data.ssoConfiguration? = some []) := by
  unfold fetch_application_details
  rw [hd]
  cases he : server.entitlements <;> cases hs : server.sso <;>
    exact ⟨_, rfl, rfl, rfl, rfl,
      by simp [DetailReq.fails], by simp [DetailReq.fails]⟩

/-- Witness for C7: main request succeeds, both subsidiary requests
fail (`subsidiaryFailServer`). -/
theorem C7_subsidiary_failure_backfill_witness :
    subsidiaryFailServer.detail = .ok okDetailData ∧
    (∃ r, fetch_application_details subsidiaryFailServer "app1" = some r ∧
      r.application_id = "app1" ∧
      r.data.entitlements?.isSome = true ∧
      r.data.ssoConfiguration?.isSome = true ∧
      (subsidiaryFailServer.entitlements.fails = true → r.data.entitlements? = some []) ∧
      (subsidiaryFailServer.sso.fails = true → r.data.ssoConfiguration? = some [])) :=
  ⟨rfl, C7_subsidiary_failure_backfill subsidiaryFailServer "app1" okDetailData rfl⟩

/-- Over ids whose detail requests all succeed, every fan-out outcome is
a record. -/
theorem detail_fan_out_all_ok (servers : String → AppDetailServer) :
    ∀ ids : List String, (∀ a ∈ ids, ∃ d, (servers a).detail = .ok d) →
      ((detail_fan_out servers ids).countP fun p => p.2.isSome) = ids.length ∧
      ((detail_fan_out servers ids).countP fun p => p.2.isNone) = 0 := by
  intro ids
  induction ids with
  | nil => intro _; simp [detail_fan_out]
  | cons a as ih =>
    intro hok
    obtain ⟨d, hd⟩ := hok a (List.mem_cons_self a as)
    have hsome := fetch_application_details_of_ok (servers a) a d hd
    have hrest := ih fun x hx => hok x (List.mem_cons_of_mem a hx)
    simp only [detail_fan_out, List.map_cons, List.countP_cons] at *
    simp [hsome, Option.isNone_iff_eq_none, hrest.1, hrest.2,
      Option.isSome_iff_ne_none.mp hsome]

/-- Fan-out outcome counts when exactly one id's detail request returns
404 and every other id's succeeds. -/
theorem detail_fan_out_one_not_found (servers : String → AppDetailServer) :
    ∀ (ids : List String) (b : String), b ∈ ids → ids.Nodup →
      (servers b).detail = .notFound →
      (∀ a ∈ ids, a ≠ b → ∃ d, (servers a).detail = .ok d) →
      ((detail_fan_out servers ids).countP fun p => p.2.isSome) = ids.length - 1 ∧
      ((detail_fan_out servers ids).countP fun p => p.2.isNone) = 1 := by
  intro ids
  induction ids with
  | nil => intro b hb; simp at hb
  | cons a as ih =>
    intro b hb hnodup hnf hok
    rcases List.mem_cons.mp hb with rfl | hbs
    · have hnone : fetch_application_details (servers b) b = none :=
        fetch_application_details_of_fails (servers b) b (by rw [hnf]; rfl)
      have hbnotin : b ∉ as := (List.nodup_cons.mp hnodup).1
      have hrest := detail_fan_out_all_ok servers as fun x hx =>
        hok x (List.mem_cons_of_mem b hx) (fun hxb => hbnotin (hxb ▸ hx))
      simp only [detail_fan_out, List.map_cons, List.countP_cons] at *
      simp [hnone, hrest.1, hrest.2]
    · have hab : a ≠ b := fun h => (List.nodup_cons.mp hnodup).1 (h ▸ hbs)
      obtain ⟨d, hd⟩ := hok a (List.mem_cons_self a as) hab
      have hsome := fetch_application_details_of_ok (servers a) a d hd
      have hrest := ih b hbs (List.nodup_cons.mp hnodup).2 hnf
        fun x hx hxb => hok x (List.mem_cons_of_mem a hx) hxb
      have hlen : 0 < as.length := List.length_pos_of_mem hbs
      simp only [detail_fan_out, List.map_cons, List.countP_cons] at *
      constructor
      · simp [hsome, Option.isSome_iff_ne_none.mp hsome, hrest.1]
        omega
      · simp [hsome, Option.isNone_iff_eq_none, Option.isSome_iff_ne_none.mp hsome, hrest.2]

/-- C5 (amended): over N parent ids of which exactly one answers its
detail fetch with 404, the fan-out yields N−1 record outcomes and one
`None` outcome; the 404 never aborts the other ids' fetches (each still
yields a record), and the fan-out never raises — but the `None` is the
same value the fan-out produces for any other per-id failure, not an
outcome distinguished from an error (see the counterexample). -/
theorem C5_fan_out_partial_failure
    (servers : String → AppDetailServer) (ids : List String) (b : String)
    (hmem : b ∈ ids) (hnodup : ids.Nodup)
    (hb : (servers b).detail = .notFound)
    (hok : ∀ a ∈ ids, a ≠ b → ∃ d, (servers a).detail = .ok d) :
    ((detail_fan_out servers ids).countP fun p => p.2.isSome) = ids.length - 1 ∧
    ((detail_fan_out servers ids).countP fun p => p.2.isNone) = 1 ∧
    (b, (none : Option AppDetailRecord)) ∈ detail_fan_out servers ids ∧
    (∀ a ∈ ids, a ≠ b → (fetch_application_details (servers a) a).isSome = true) := by
  obtain ⟨h1, h2⟩ := detail_fan_out_one_not_found servers ids b hmem hnodup hb hok
  refine ⟨h1, h2, ?_, ?_⟩
  · have hnone : fetch_application_details (servers b) b = none :=
      fetch_application_details_of_fails (servers b) b (by rw [hb]; rfl)
    have : (b, fetch_application_details (servers b) b) ∈ detail_fan_out servers ids :=
      List.mem_map_of_mem (fun app_id => (app_id, fetch_application_details (servers app_id) app_id)) hmem
    rwa [hnone] at this
  · intro a ha hab
    obtain ⟨d, hd⟩ := hok a ha hab
    exact fetch_application_details_of_ok (servers a) a d hd

/-- Witness for C5 at three ids of which `app2` answers 404. -/
theorem C5_fan_out_partial_failure_witness :
    ("app2" ∈ ["app1", "app2", "app3"]) ∧
    (["app1", "app2", "app3"] : List String).Nodup ∧
    (mixedDetailServers "app2").detail = .notFound ∧
    (((detail_fan_out mixedDetailServers ["app1", "app2", "app3"]).countP
        fun p => p.2.isSome) = (["app1", "app2", "app3"] : List String).length - 1 ∧
      ((detail_fan_out mixedDetailServers ["app1", "app2", "app3"]).countP
        fun p => p.2.isNone) = 1 ∧
      ("app2", (none : Option AppDetailRecord))
        ∈ detail_fan_out mixedDetailServers ["app1", "app2", "app3"] ∧
      (∀ a ∈ (["app1", "app2", "app3"] : List String), a ≠ "app2" →
        (fetch_application_details (mixedDetailServers a) a).isSome = true)) :=
  ⟨by decide, by decide, by decide,
    C5_fan_out_partial_failure mixedDetailServers ["app1", "app2", "app3"] "app2"
      (by decide) (by decide) (by decide)
      (by intro a ha hab
          refine ⟨okDetailData, ?_⟩
          fin_cases ha <;> simp_all [mixedDetailServers, okDetailServer])⟩

/-- Counterexample to C5 as stated: the 404 outcome is not
distinguished from an error. With `app2` answering 404 the fan-out's
result is exactly the value it has when `app2` instead fails with a
non-404 error — both give the record outcome `None` — so no consumer of
the fan-out can tell the not-found outcome from an error outcome. -/
theorem C5_fan_out_partial_failure_counterexample :
    fetch_application_details notFoundDetailServer "app2" = none ∧
    fetch_application_details errDetailServer "app2" = none ∧
    detail_fan_out mixedDetailServers ["app1", "app2", "app3"]
      = detail_fan_out mixedErrServers ["app1", "app2", "app3"] := by
  decide

/-! ### Offset/limit pagination lemmas -/

/-- Step equation: a page request that raises logs and breaks. -/
theorem apps_loop_exn (server : Nat → ReqOutcome AppsPage) (limit fuel start : Nat)
    (h : server start = .exn) :
    fetch_applications_loop server limit (fuel + 1) start = ⟨[], [start], true⟩ := by
  unfold fetch_applications_loop
  rw [h]

/-- Step equation: an empty item array breaks. -/
theorem apps_loop_empty (server : Nat → ReqOutcome AppsPage) (limit fuel start : Nat)
    (page : AppsPage) (h : server start = .ok page)
    (he : page.applications.isEmpty = true) :
    fetch_applications_loop server limit (fuel + 1) start = ⟨[], [start], true⟩ := by
  unfold fetch_applications_loop
  rw [h]
  exact if_pos he

/-- Step equation: the stop condition `offset + limit >= total` breaks
after yielding the page. -/
theorem apps_loop_last (server : Nat → ReqOutcome AppsPage) (limit fuel start : Nat)
    (page : AppsPage) (h : server start = .ok page)
    (he : ¬ page.applications.isEmpty = true)
    (ht : page.total?.getD 0 ≤ start + limit) :
    fetch_applications_loop server limit (fuel + 1) start =
      ⟨page.applications.map deriveAppId, [start], true⟩ := by
  unfold fetch_applications_loop
  rw [h]
  exact (if_neg he).trans (if_pos ht)

/-- Step equation: otherwise the page is yielded and the loop advances
by `offset += limit`. -/
theorem apps_loop_step (server : Nat → ReqOutcome AppsPage) (limit fuel start : Nat)
    (page : AppsPage) (h : server start = .ok page)
    (he : ¬ page.applications.isEmpty = true)
    (ht : ¬ page.total?.getD 0 ≤ start + limit) :
    fetch_applications_loop server limit (fuel + 1) start =
      ⟨page.applications.map deriveAppId
          ++ (fetch_applications_loop server limit fuel (start + limit)).items,
        start :: (fetch_applications_loop server limit fuel (start + limit)).offsets,
        (fetch_applications_loop server limit fuel (start + limit)).completed⟩ := by
  conv_lhs => rw [fetch_applications_loop]
  rw [h]
  exact (if_neg he).trans (if_neg ht)

/-- Every offset the loop requests is at least its starting offset. -/
theorem apps_loop_offsets_ge (server : Nat → ReqOutcome AppsPage) (limit : Nat) :
    ∀ fuel start o,
      o ∈ (fetch_applications_loop server limit fuel start).offsets → start ≤ o := by
  intro fuel
  induction fuel with
  | zero => intro start o h; simp [fetch_applications_loop] at h
  | succ n ih =>
    intro start o h
    cases hs : server start with
    | exn =>
      rw [apps_loop_exn server limit n start hs] at h
      simp at h
      omega
    | ok page =>
      by_cases he : page.applications.isEmpty = true
      · rw [apps_loop_empty server limit n start page hs he] at h
        simp at h
        omega
      · by_cases ht : page.total?.getD 0 ≤ start + limit
        · rw [apps_loop_last server limit n start page hs he ht] at h
          simp at h
          omega
        · rw [apps_loop_step server limit n start page hs he ht] at h
          simp only [List.mem_cons] at h
          rcases h with rfl | h
          · omega
          · have := ih (start + limit) o h
            omega

/-- With at least one unit of fuel the first requested offset is the
starting offset. -/
theorem apps_loop_offsets_head (server : Nat → ReqOutcome AppsPage)
    (limit fuel start : Nat) (hf : 1 ≤ fuel) :
    (fetch_applications_loop server limit fuel start).offsets.head? = some start := by
  obtain ⟨n, rfl⟩ : ∃ n, fuel = n + 1 := ⟨fuel - 1, by omega⟩
  cases hs : server start with
  | exn =>
    rw [apps_loop_exn server limit n start hs]
    rfl
  | ok page =>
    by_cases he : page.applications.isEmpty = true
    · rw [apps_loop_empty server limit n start page hs he]
      rfl
    · by_cases ht : page.total?.getD 0 ≤ start + limit
      · rw [apps_loop_last server limit n start page hs he ht]
        rfl
      · rw [apps_loop_step server limit n start page hs he ht]
        rfl

/-- Consecutive requested offsets differ by exactly `limit`: the cursor
advances by `offset += limit` and nothing else. -/
theorem apps_loop_offsets_chain (server : Nat → ReqOutcome AppsPage) (limit : Nat) :
    ∀ fuel start, List.Chain' (fun a b => b = a + limit)
      (fetch_applications_loop server limit fuel start).offsets := by
  intro fuel
  induction fuel with
  | zero => intro start; simp [fetch_applications_loop]
  | succ n ih =>
    intro start
    cases hs : server start with
    | exn => rw [apps_loop_exn server limit n start hs]; simp
    | ok page =>
      by_cases he : page.applications.isEmpty = true
      · rw [apps_loop_empty server limit n start page hs he]; simp
      · by_cases ht : page.total?.getD 0 ≤ start + limit
        · rw [apps_loop_last server limit n start page hs he ht]; simp
        · rw [apps_loop_step server limit n start page hs he ht]
          refine List.chain'_cons'.mpr ⟨?_, ih (start + limit)⟩
          intro y hy
          cases n with
          | zero => simp [fetch_applications_loop] at hy
          | succ m =>
            rw [apps_loop_offsets_head server limit (m + 1) (start + limit)
              (by omega)] at hy
            injection hy with hy
            omega

/-- With positive `limit` the requested offsets are strictly
increasing, hence pairwise distinct: no offset is fetched twice. -/
theorem apps_loop_offsets_pairwise (server : Nat → ReqOutcome AppsPage)
    (limit : Nat) (hl : 0 < limit) :
    ∀ fuel start,
      (fetch_applications_loop server limit fuel start).offsets.Pairwise (· < ·) := by
  intro fuel
  induction fuel with
  | zero => intro start; simp [fetch_applications_loop]
  | succ n ih =>
    intro start
    cases hs : server start with
    | exn => rw [apps_loop_exn server limit n start hs]; simp
    | ok page =>
      by_cases he : page.applications.isEmpty = true
      · rw [apps_loop_empty server limit n start page hs he]; simp
      · by_cases ht : page.total?.getD 0 ≤ start + limit
        · rw [apps_loop_last server limit n start page hs he ht]; simp
        · rw [apps_loop_step server limit n start page hs he ht]
          refine List.pairwise_cons.mpr ⟨?_, ih (start + limit)⟩
          intro o ho
          have := apps_loop_offsets_ge server limit n (start + limit) o ho
          omega

/-- When every successful page reports the same `total = T`, the loop
from `start` issues at most `max 1 ceil((T - start) / limit)` page
requests. -/
theorem apps_loop_length_le (server : Nat → ReqOutcome AppsPage) (limit T : Nat)
    (hl : 0 < limit)
    (hT : ∀ o page, server o = .ok page → page.total?.getD 0 = T) :
    ∀ fuel start, (fetch_applications_loop server limit fuel start).offsets.length
      ≤ max 1 ((T - start + limit - 1) / limit) := by
  intro fuel
  induction fuel with
  | zero => intro start; simp [fetch_applications_loop]
  | succ n ih =>
    intro start
    cases hs : server start with
    | exn => rw [apps_loop_exn server limit n start hs]; simp
    | ok page =>
      by_cases he : page.applications.isEmpty = true
      · rw [apps_loop_empty server limit n start page hs he]; simp
      · by_cases ht : page.total?.getD 0 ≤ start + limit
        · rw [apps_loop_last server limit n start page hs he ht]; simp
        · rw [apps_loop_step server limit n start page hs he ht]
          simp only [List.length_cons]
          rw [hT start page hs] at ht
          push_neg at ht
          have h1 : T - start + limit - 1 = (T - start - 1) + limit := by omega
          have h2 : T - (start + limit) + limit - 1 = T - start - 1 := by omega
          have h4 : (T - start - 1 + limit) / limit = (T - start - 1) / limit + 1 :=
            Nat.add_div_right _ hl
          have h5 : 1 ≤ (T - start - 1) / limit :=
            (Nat.one_le_div_iff hl).mpr (by omega)
          have h6 := ih (start + limit)
          rw [h2] at h6
          rw [h1, h4]
          omega

/-- When every successful page reports the same `total = T` and the
fuel is at least the page-count bound, the loop reaches a `break`. -/
theorem apps_loop_completed (server : Nat → ReqOutcome AppsPage) (limit T : Nat)
    (hl : 0 < limit)
    (hT : ∀ o page, server o = .ok page → page.total?.getD 0 = T) :
    ∀ fuel start, max 1 ((T - start + limit - 1) / limit) ≤ fuel →
      (fetch_applications_loop server limit fuel start).completed = true := by
  intro fuel
  induction fuel with
  | zero => intro start h; omega
  | succ n ih =>
    intro start h
    cases hs : server start with
    | exn => rw [apps_loop_exn server limit n start hs]
    | ok page =>
      by_cases he : page.applications.isEmpty = true
      · rw [apps_loop_empty server limit n start page hs he]
      · by_cases ht : page.total?.getD 0 ≤ start + limit
        · rw [apps_loop_last server limit n start page hs he ht]
        · rw [apps_loop_step server limit n start page hs he ht]
          apply ih (start + limit)
          rw [hT start page hs] at ht
          push_neg at ht
          have h1 : T - start + limit - 1 = (T - start - 1) + limit := by omega
          have h2 : T - (start + limit) + limit - 1 = T - start - 1 := by omega
          have h4 : (T - start - 1 + limit) / limit = (T - start - 1) / limit + 1 :=
            Nat.add_div_right _ hl
          have h5 : 1 ≤ (T - start - 1) / limit :=
            (Nat.one_le_div_iff hl).mpr (by omega)
          rw [h1, h4] at h
          rw [h2]
          omega

/-- Every item of every successfully fetched page is yielded, in its
`deriveAppId` form. -/
theorem apps_loop_items_of_mem (server : Nat → ReqOutcome AppsPage) (limit : Nat) :
    ∀ fuel start o page a,
      o ∈ (fetch_applications_loop server limit fuel start).offsets →
      server o = .ok page → a ∈ page.applications →
      deriveAppId a ∈ (fetch_applications_loop server limit fuel start).items := by
  intro fuel
  induction fuel with
  | zero => intro start o page a h; simp [fetch_applications_loop] at h
  | succ n ih =>
    intro start o page a ho hpage ha
    cases hs : server start with
    | exn =>
      rw [apps_loop_exn server limit n start hs] at ho
      simp at ho
      subst ho
      rw [hs] at hpage
      exact absurd hpage (by simp)
    | ok page0 =>
      by_cases he : page0.applications.isEmpty = true
      · rw [apps_loop_empty server limit n start page0 hs he] at ho
        simp at ho
        subst ho
        rw [hs] at hpage
        injection hpage with hpq
        subst hpq
        rw [List.isEmpty_iff] at he
        rw [he] at ha
        simp at ha
      · by_cases ht : page0.total?.getD 0 ≤ start + limit
        · rw [apps_loop_last server limit n start page0 hs he ht] at ho ⊢
          simp at ho
          subst ho
          rw [hs] at hpage
          injection hpage with hpq
          subst hpq
          exact List.mem_map_of_mem deriveAppId ha
        · rw [apps_loop_step server limit n start page0 hs he ht] at ho ⊢
          simp only [List.mem_cons] at ho
          rcases ho with rfl | ho
          · rw [hs] at hpage
            injection hpage with hpq
            subst hpq
            exact List.mem_append_left _ (List.mem_map_of_mem deriveAppId ha)
          · exact List.mem_append_right _ (ih (start + limit) o page a ho hpage ha)

set_option maxRecDepth 100000 in
/-- C1 (amended): with a positive page size and every successful page
reporting the same `total = T`, the `fetch_applications` traversal
starts at offset 0, advances by `offset += limit` (consecutive fetched
offsets differ by exactly `limit`), never fetches the same offset twice
(offsets strictly increase), reaches a `break` and performs at most
`max 1 ceil(total/limit)` page fetches — `ceil(total/limit)` itself when
`total >= 1`, but one fetch, not zero, when `total = 0`, since a page
must be read to learn `total` (see the counterexample); with
`total = 250` and `limit = 100` it performs exactly 3 page fetches at
offsets 0, 100, 200 and yields 250 records. -/
theorem C1_offset_limit_pagination
    (server : Nat → ReqOutcome AppsPage) (limit T fuel : Nat)
    (hl : 0 < limit)
    (hT : ∀ o page, server o = .ok page → page.total?.getD 0 = T)
    (hfuel : max 1 ((T + limit - 1) / limit) ≤ fuel) :
    (fetch_applications server limit fuel).offsets.head? = some 0 ∧
    List.Chain' (fun a b => b = a + limit) (fetch_applications server limit fuel).offsets ∧
    (fetch_applications server limit fuel).offsets.Pairwise (· < ·) ∧
    (fetch_applications server limit fuel).offsets.length
      ≤ max 1 ((T + limit - 1) / limit) ∧
    (fetch_applications server limit fuel).completed = true ∧
    (fetch_applications exampleServer250 100 3).offsets = [0, 100, 200] ∧
    (fetch_applications exampleServer250 100 3).items.length = 250 := by
  have hf1 : 1 ≤ fuel := le_trans (Nat.le_max_left _ _) hfuel
  refine ⟨apps_loop_offsets_head server limit fuel 0 hf1,
    apps_loop_offsets_chain server limit fuel 0,
    apps_loop_offsets_pairwise server limit hl fuel 0,
    ?_, ?_, by decide, by decide⟩
  · have h := apps_loop_length_le server limit T hl hT fuel 0
    simpa using h
  · apply apps_loop_completed server limit T hl hT fuel 0
    simpa using hfuel

/-- Witness for C1 at the `total = 250`, `limit = 100` oracle with
fuel 3. -/
theorem C1_offset_limit_pagination_witness :
    (0 < 100) ∧ (max 1 ((250 + 100 - 1) / 100) ≤ 3) ∧
    ((fetch_applications exampleServer250 100 3).offsets.head? = some 0 ∧
      List.Chain' (fun a b => b = a + 100)
        (fetch_applications exampleServer250 100 3).offsets ∧
      (fetch_applications exampleServer250 100 3).offsets.Pairwise (· < ·) ∧
      (fetch_applications exampleServer250 100 3).offsets.length
        ≤ max 1 ((250 + 100 - 1) / 100) ∧
      (fetch_applications exampleServer250 100 3).completed = true ∧
      (fetch_applications exampleServer250 100 3).offsets = [0, 100, 200] ∧
      (fetch_applications exampleServer250 100 3).items.length = 250) :=
  ⟨by decide, by decide,
    C1_offset_limit_pagination exampleServer250 100 250 3 (by decide)
      (by
        intro o page h
        simp only [exampleServer250] at h
        injection h with h
        subst h
        rfl)
      (by decide)⟩

/-- Counterexample to C1 as stated: the traversal does not always
terminate within `ceil(total/limit)` page fetches. Over an empty
collection every page reports `total = 0` and an empty item array
(`emptyAppsServer`), so `ceil(total/limit) = ceil(0/100) = 0`, yet the
code must issue (and does issue) 1 page fetch — the bound only holds in
the form `max 1 ceil(total/limit)`. -/
theorem C1_offset_limit_pagination_counterexample :
    (fetch_applications emptyAppsServer 100 5).offsets.length = 1 ∧
    (0 + 100 - 1) / 100 = 0 ∧
    ¬ (fetch_applications emptyAppsServer 100 5).offsets.length ≤ (0 + 100 - 1) / 100 := by
  decide

/-- C8: every item yielded by the applications pagination strategy that
carries a `_links.self.href` self-link with a non-empty URL and no
direct `id` field is yielded with its `id` key set to the final path
segment of that URL. -/
theorem C8_link_derived_identifier
    (server : Nat → ReqOutcome AppsPage) (limit fuel o : Nat)
    (page : AppsPage) (a : AppPayload) (href : String)
    (ho : o ∈ (fetch_applications server limit fuel).offsets)
    (hpage : server o = .ok page)
    (ha : a ∈ page.applications)
    (hhref : a.selfHref? = some href)
    (hne : href ≠ "")
    (hid : a.id? = none) :
    deriveAppId a ∈ (fetch_applications server limit fuel).items ∧
    deriveAppId a = { a with id? := some (lastHrefSegment href) } ∧
    (deriveAppId a).id? = some (lastHrefSegment href) := by
  have hmem := apps_loop_items_of_mem server limit fuel 0 o page a ho hpage ha
  have hder : deriveAppId a = { a with id? := some (lastHrefSegment href) } := by
    unfold deriveAppId
    rw [hhref]
    simp [hne]
  exact ⟨hmem, hder, by rw [hder]⟩

/-- Witness for C8 at a payload whose only identifier is the self-link
`/appaccess/v1.0/applications/123456`: the final path segment `123456`
is stored under `id`. -/
theorem C8_link_derived_identifier_witness :
    (0 ∈ (fetch_applications hrefAppsServer 100 1).offsets) ∧
    hrefApp ∈ (⟨[hrefApp], some 1⟩ : AppsPage).applications ∧
    hrefApp.selfHref? = some "/appaccess/v1.0/applications/123456" ∧
    hrefApp.id? = none ∧
    lastHrefSegment "/appaccess/v1.0/applications/123456" = "123456" ∧
    (deriveAppId hrefApp ∈ (fetch_applications hrefAppsServer 100 1).items ∧
      deriveAppId hrefApp =
        { hrefApp with id? := some (lastHrefSegment "/appaccess/v1.0/applications/123456") } ∧
      (deriveAppId hrefApp).id? = some (lastHrefSegment "/appaccess/v1.0/applications/123456")) :=
  ⟨by decide, by decide, rfl, rfl, by decide,
    C8_link_derived_identifier hrefAppsServer 100 1 0 ⟨[hrefApp], some 1⟩ hrefApp
      "/appaccess/v1.0/applications/123456" (by decide) rfl (by decide) rfl
      (by decide) rfl⟩

/-- C9: a page response with a non-empty item array and no `total` key
makes the traversal treat `total` as 0, yield exactly that first page's
items (in `deriveAppId` form), and break immediately after it: the stop
condition `offset + limit >= 0` holds, so a stream that never reports a
total cannot loop. -/
theorem C9_missing_total_single_page
    (server : Nat → ReqOutcome AppsPage) (limit fuel : Nat) (page : AppsPage)
    (h0 : server 0 = .ok page)
    (htot : page.total? = none)
    (hne : ¬ page.applications.isEmpty = true)
    (hfuel : 1 ≤ fuel) :
    fetch_applications server limit fuel =
      ⟨page.applications.map deriveAppId, [0], true⟩ := by
  obtain ⟨n, rfl⟩ : ∃ n, fuel = n + 1 := ⟨fuel - 1, by omega⟩
  unfold fetch_applications
  exact apps_loop_last server limit n 0 page h0 hne (by simp [htot])

/-- Witness for C9 at a single-item page without a `total` key. -/
theorem C9_missing_total_single_page_witness :
    noTotalServer 0 = .ok ⟨[sampleApp], none⟩ ∧
    (⟨[sampleApp], none⟩ : AppsPage).total? = none ∧
    (¬ (⟨[sampleApp], none⟩ : AppsPage).applications.isEmpty = true) ∧
    fetch_applications noTotalServer 100 1 =
      ⟨List.map deriveAppId [sampleApp], [0], true⟩ :=
  ⟨rfl, rfl, by decide,
    C9_missing_total_single_page noTotalServer 100 1 ⟨[sampleApp], none⟩ rfl rfl
      (by decide) (by decide)⟩

/-! ### SCIM pagination lemmas -/

/-- Step equation: an empty extracted item array breaks. -/
theorem scim_loop_empty (server : Nat → ScimData) (count fuel si : Nat)
    (he : (scimItems (server si)).isEmpty = true) :
    fetch_groups_loop server count (fuel + 1) si = ⟨[], [si], true⟩ := by
  conv_lhs => rw [fetch_groups_loop]
  exact if_pos he

/-- Step equation: a non-empty bare-list response yields and breaks. -/
theorem scim_loop_arr (server : Nat → ScimData) (count fuel si : Nat)
    (items : List GroupPayload) (h : server si = .arr items)
    (hne : ¬ (scimItems (server si)).isEmpty = true) :
    fetch_groups_loop server count (fuel + 1) si =
      ⟨items.map enrichGroup, [si], true⟩ := by
  conv_lhs => rw [fetch_groups_loop]
  rw [if_neg hne, h]
  rfl

/-- Step equation: a non-empty dict page meeting the SCIM stop
condition yields and breaks. -/
theorem scim_loop_obj_stop (server : Nat → ScimData) (count fuel si : Nat)
    (g G r : Option (List GroupPayload)) (tr? : Option Nat)
    (h : server si = .obj g G r tr?)
    (hne : ¬ (scimItems (server si)).isEmpty = true)
    (hstop : tr?.getD 0 = 0 ∨ tr?.getD 0 ≤ si + count - 1) :
    fetch_groups_loop server count (fuel + 1) si =
      ⟨(g.getD (G.getD (r.getD []))).map enrichGroup, [si], true⟩ := by
  conv_lhs => rw [fetch_groups_loop]
  rw [if_neg hne, h]
  exact if_pos hstop

/-- Step equation: otherwise the page is yielded and the cursor
advances by `startIndex += count`. -/
theorem scim_loop_obj_next (server : Nat → ScimData) (count fuel si : Nat)
    (g G r : Option (List GroupPayload)) (tr? : Option Nat)
    (h : server si = .obj g G r tr?)
    (hne : ¬ (scimItems (server si)).isEmpty = true)
    (hgo : ¬ (tr?.getD 0 = 0 ∨ tr?.getD 0 ≤ si + count - 1)) :
    fetch_groups_loop server count (fuel + 1) si =
      ⟨(g.getD (G.getD (r.getD []))).map enrichGroup
          ++ (fetch_groups_loop server count fuel (si + count)).records,
        si :: (fetch_groups_loop server count fuel (si + count)).startIndices,
        (fetch_groups_loop server count fuel (si + count)).completed⟩ := by
  conv_lhs => rw [fetch_groups_loop]
  rw [if_neg hne, h]
  exact if_neg hgo

/-- Every startIndex the loop requests is at least its starting
index. -/
theorem scim_loop_indices_ge (server : Nat → ScimData) (count : Nat) :
    ∀ fuel si x,
      x ∈ (fetch_groups_loop server count fuel si).startIndices → si ≤ x := by
  intro fuel
  induction fuel with
  | zero => intro si x h; simp [fetch_groups_loop] at h
  | succ n ih =>
    intro si x h
    by_cases he : (scimItems (server si)).isEmpty = true
    · rw [scim_loop_empty server count n si he] at h
      simp at h
      omega
    · cases hs : server si with
      | arr items =>
        rw [scim_loop_arr server count n si items hs he] at h
        simp at h
        omega
      | obj g G r tr? =>
        by_cases hstop : tr?.getD 0 = 0 ∨ tr?.getD 0 ≤ si + count - 1
        · rw [scim_loop_obj_stop server count n si g G r tr? hs he hstop] at h
          simp at h
          omega
        · rw [scim_loop_obj_next server count n si g G r tr? hs he hstop] at h
          simp only [List.mem_cons] at h
          rcases h with rfl | h
          · omega
          · have := ih (si + count) x h
            omega

/-- With at least one unit of fuel the first requested startIndex is
the starting index. -/
theorem scim_loop_indices_head (server : Nat → ScimData) (count fuel si : Nat)
    (hf : 1 ≤ fuel) :
    (fetch_groups_loop server count fuel si).startIndices.head? = some si := by
  obtain ⟨n, rfl⟩ : ∃ n, fuel = n + 1 := ⟨fuel - 1, by omega⟩
  by_cases he : (scimItems (server si)).isEmpty = true
  · rw [scim_loop_empty server count n si he]
    rfl
  · cases hs : server si with
    | arr items =>
      rw [scim_loop_arr server count n si items hs he]
      rfl
    | obj g G r tr? =>
      by_cases hstop : tr?.getD 0 = 0 ∨ tr?.getD 0 ≤ si + count - 1
      · rw [scim_loop_obj_stop server count n si g G r tr? hs he hstop]
        rfl
      · rw [scim_loop_obj_next server count n si g G r tr? hs he hstop]
        rfl

/-- With at least one unit of fuel at least one page is requested. -/
theorem scim_loop_indices_ne_nil (server : Nat → ScimData) (count fuel si : Nat)
    (hf : 1 ≤ fuel) :
    (fetch_groups_loop server count fuel si).startIndices ≠ [] := by
  intro hnil
  have h := scim_loop_indices_head server count fuel si hf
  rw [hnil] at h
  simp at h

/-- Consecutive requested startIndices differ by exactly `count`. -/
theorem scim_loop_indices_chain (server : Nat → ScimData) (count : Nat) :
    ∀ fuel si, List.Chain' (fun a b => b = a + count)
      (fetch_groups_loop server count fuel si).startIndices := by
  intro fuel
  induction fuel with
  | zero => intro si; simp [fetch_groups_loop]
  | succ n ih =>
    intro si
    by_cases he : (scimItems (server si)).isEmpty = true
    · rw [scim_loop_empty server count n si he]
      simp
    · cases hs : server si with
      | arr items =>
        rw [scim_loop_arr server count n si items hs he]
        simp
      | obj g G r tr? =>
        by_cases hstop : tr?.getD 0 = 0 ∨ tr?.getD 0 ≤ si + count - 1
        · rw [scim_loop_obj_stop server count n si g G r tr? hs he hstop]
          simp
        · rw [scim_loop_obj_next server count n si g G r tr? hs he hstop]
          refine List.chain'_cons'.mpr ⟨?_, ih (si + count)⟩
          intro y hy
          cases n with
          | zero => simp [fetch_groups_loop] at hy
          | succ m =>
            rw [scim_loop_indices_head server count (m + 1) (si + count)
              (by omega)] at hy
            injection hy with hy
            omega

/-- With positive `count` the requested startIndices strictly
increase. -/
theorem scim_loop_indices_pairwise (server : Nat → ScimData) (count : Nat)
    (hc : 0 < count) :
    ∀ fuel si,
      (fetch_groups_loop server count fuel si).startIndices.Pairwise (· < ·) := by
  intro fuel
  induction fuel with
  | zero => intro si; simp [fetch_groups_loop]
  | succ n ih =>
    intro si
    by_cases he : (scimItems (server si)).isEmpty = true
    · rw [scim_loop_empty server count n si he]
      simp
    · cases hs : server si with
      | arr items =>
        rw [scim_loop_arr server count n si items hs he]
        simp
      | obj g G r tr? =>
        by_cases hstop : tr?.getD 0 = 0 ∨ tr?.getD 0 ≤ si + count - 1
        · rw [scim_loop_obj_stop server count n si g G r tr? hs he hstop]
          simp
        · rw [scim_loop_obj_next server count n si g G r tr? hs he hstop]
          refine List.pairwise_cons.mpr ⟨?_, ih (si + count)⟩
          intro x hx
          have := scim_loop_indices_ge server count n (si + count) x hx
          omega

/-- C2 (amended): the SCIM traversal starts at startIndex 1 and
startIndex strictly increases by exactly `count` each iteration; after
a page whose response is a dict with a non-empty extracted item array,
the traversal stops exactly when `totalResults == 0 or startIndex +
count - 1 >= totalResults` — but it also stops on an empty item array
(see the counterexample) or a bare-list response, so the two stated
conditions are not the only termination causes; with `totalResults = 5`,
`count = 100`, `startIndex = 1` it performs exactly 1 page fetch and
terminates. -/
theorem C2_scim_pagination
    (server : Nat → ScimData) (count fuel : Nat)
    (hc : 0 < count) (hfuel : 1 ≤ fuel)
    (si fuel2 : Nat) (hfuel2 : 1 ≤ fuel2)
    (g G r : Option (List GroupPayload)) (tr? : Option Nat)
    (hobj : server si = .obj g G r tr?)
    (hne : ¬ (scimItems (server si)).isEmpty = true) :
    (fetch_groups server count fuel).startIndices.head? = some 1 ∧
    List.Chain' (fun a b => b = a + count) (fetch_groups server count fuel).startIndices ∧
    (fetch_groups server count fuel).startIndices.Pairwise (· < ·) ∧
    ((fetch_groups_loop server count (fuel2 + 1) si).startIndices = [si] ↔
      (tr?.getD 0 = 0 ∨ tr?.getD 0 ≤ si + count - 1)) ∧
    (fetch_groups scimExample5Server 100 10).startIndices = [1] ∧
    (fetch_groups scimExample5Server 100 10).completed = true ∧
    (fetch_groups scimExample5Server 100 10).records.length = 5 := by
  refine ⟨scim_loop_indices_head server count fuel 1 hfuel,
    scim_loop_indices_chain server count fuel 1,
    scim_loop_indices_pairwise server count hc fuel 1,
    ⟨?_, ?_⟩, by decide, by decide, by decide⟩
  · intro heq
    by_contra hgo
    rw [scim_loop_obj_next server count fuel2 si g G r tr? hobj hne hgo] at heq
    have hcons := List.cons_eq_cons.mp heq
    exact scim_loop_indices_ne_nil server count fuel2 (si + count) hfuel2 hcons.2
  · intro hstop
    rw [scim_loop_obj_stop server count fuel2 si g G r tr? hobj hne hstop]

/-- Witness for C2 at the `totalResults = 5`, `count = 100` oracle. -/
theorem C2_scim_pagination_witness :
    (0 < 100) ∧ (1 ≤ 10) ∧ (1 ≤ 1) ∧
    scimExample5Server 1 = .obj none none (some (List.replicate 5 sampleGroup)) (some 5) ∧
    (¬ (scimItems (scimExample5Server 1)).isEmpty = true) ∧
    ((fetch_groups scimExample5Server 100 10).startIndices.head? = some 1 ∧
      List.Chain' (fun a b => b = a + 100)
        (fetch_groups scimExample5Server 100 10).startIndices ∧
      (fetch_groups scimExample5Server 100 10).startIndices.Pairwise (· < ·) ∧
      ((fetch_groups_loop scimExample5Server 100 (1 + 1) 1).startIndices = [1] ↔
        ((some 5 : Option Nat).getD 0 = 0 ∨
          (some 5 : Option Nat).getD 0 ≤ 1 + 100 - 1)) ∧
      (fetch_groups scimExample5Server 100 10).startIndices = [1] ∧
      (fetch_groups scimExample5Server 100 10).completed = true ∧
      (fetch_groups scimExample5Server 100 10).records.length = 5) :=
  ⟨by decide, by decide, by decide, rfl, by decide,
    C2_scim_pagination scimExample5Server 100 10 (by decide) (by decide) 1 1 (by decide)
      none none (some (List.replicate 5 sampleGroup)) (some 5) rfl (by decide)⟩

/-- Counterexample to C2 as stated: the traversal does not terminate
only when `totalResults == 0` or `startIndex + count - 1 >=
totalResults`. Against an endpoint whose page reports `totalResults =
500` with an empty `Resources` array, the traversal terminates after
its first page fetch although `500 ≠ 0` and `1 + 100 - 1 = 100 < 500`:
the empty item array is a third termination cause. -/
theorem C2_scim_pagination_counterexample :
    (fetch_groups scimEmpty500Server 100 10).startIndices = [1] ∧
    (fetch_groups scimEmpty500Server 100 10).completed = true ∧
    ¬ ((500 : Nat) = 0 ∨ (500 : Nat) ≤ 1 + 100 - 1) := by
  decide

/-! ### Dynamic-groups lemmas -/

/-- Step equation: a transport error is logged and re-raised. -/
theorem dyn_loop_netError (server : Nat → DynHttp) (limit fuel offset : Nat)
    (h : server offset = .netError) :
    fetch_dynamic_groups_loop server limit (fuel + 1) offset =
      ⟨[], [offset], .raised .requestException⟩ := by
  conv_lhs => rw [fetch_dynamic_groups_loop]
  rw [h]

/-- Step equation: HTTP 401 raises the distinguished `PermissionError`
with the remediation message. -/
theorem dyn_loop_401 (server : Nat → DynHttp) (limit fuel offset : Nat)
    (body : DynBody) (h : server offset = .response 401 body) :
    fetch_dynamic_groups_loop server limit (fuel + 1) offset =
      ⟨[], [offset], .raised (.permissionError abacRemediationMsg)⟩ := by
  conv_lhs => rw [fetch_dynamic_groups_loop]
  rw [h]
  rfl

/-- Step equation: any non-401 error status makes `raise_for_status`
raise, and the `RequestException` handler logs and re-raises. -/
theorem dyn_loop_error_status (server : Nat → DynHttp) (limit fuel offset : Nat)
    (status : Nat) (body : DynBody) (h : server offset = .response status body)
    (h1 : ¬ status = 401) (h2 : 400 ≤ status) :
    fetch_dynamic_groups_loop server limit (fuel + 1) offset =
      ⟨[], [offset], .raised .requestException⟩ := by
  conv_lhs => rw [fetch_dynamic_groups_loop]
  rw [h]
  exact (if_neg h1).trans (if_pos h2)

/-- C4 (amended): an HTTP 401 on the dynamic-groups endpoint raises the
distinguished `PermissionError` carrying the ABAC remediation hint, and
`main` catches it and returns exit code 1 (non-zero); an HTTP 403,
however, is not special-cased: it surfaces as a generic
`RequestException` that propagates uncaught out of `main` (the process
still dies non-zero, but with a traceback, not the distinguished
entitlement report). -/
theorem C4_entitlement_gap
    (server401 server403 : Nat → DynHttp) (limit fuel : Nat)
    (body401 body403 : DynBody)
    (h401 : server401 0 = .response 401 body401)
    (h403 : server403 0 = .response 403 body403)
    (hfuel : 1 ≤ fuel) :
    (fetch_dynamic_groups server401 limit fuel).termination
        = .raised (.permissionError abacRemediationMsg) ∧
    isEntitlementRaise (fetch_dynamic_groups server401 limit fuel).termination = true ∧
    dyn_main server401 limit fuel = .exitCode 1 ∧
    (fetch_dynamic_groups server403 limit fuel).termination = .raised .requestException ∧
    isEntitlementRaise (fetch_dynamic_groups server403 limit fuel).termination = false ∧
    dyn_main server403 limit fuel = .uncaughtException .requestException := by
  obtain ⟨n, rfl⟩ : ∃ n, fuel = n + 1 := ⟨fuel - 1, by omega⟩
  have e401 : fetch_dynamic_groups server401 limit (n + 1) =
      ⟨[], [0], .raised (.permissionError abacRemediationMsg)⟩ := by
    unfold fetch_dynamic_groups
    exact dyn_loop_401 server401 limit n 0 body401 h401
  have e403 : fetch_dynamic_groups server403 limit (n + 1) =
      ⟨[], [0], .raised .requestException⟩ := by
    unfold fetch_dynamic_groups
    exact dyn_loop_error_status server403 limit n 0 403 body403 h403 (by decide) (by decide)
  refine ⟨by rw [e401], by rw [e401]; rfl, ?_, by rw [e403], by rw [e403]; rfl, ?_⟩
  · unfold dyn_main
    rw [e401]
  · unfold dyn_main
    rw [e403]

/-- Witness for C4 at oracles answering 401 and 403 on every page. -/
theorem C4_entitlement_gap_witness :
    dyn401Server 0 = .response 401 (.arr []) ∧
    dyn403Server 0 = .response 403 (.arr []) ∧
    ((1 : Nat) ≤ 5) ∧
    ((fetch_dynamic_groups dyn401Server 100 5).termination
        = .raised (.permissionError abacRemediationMsg) ∧
      isEntitlementRaise (fetch_dynamic_groups dyn401Server 100 5).termination = true ∧
      dyn_main dyn401Server 100 5 = .exitCode 1 ∧
      (fetch_dynamic_groups dyn403Server 100 5).termination = .raised .requestException ∧
      isEntitlementRaise (fetch_dynamic_groups dyn403Server 100 5).termination = false ∧
      dyn_main dyn403Server 100 5 = .uncaughtException .requestException) :=
  ⟨rfl, rfl, by decide,
    C4_entitlement_gap dyn401Server dyn403Server 100 5 (.arr []) (.arr []) rfl rfl
      (by decide)⟩

/-- Counterexample to C4 as stated: an HTTP 403 on the dynamic-groups
endpoint does not yield the distinguished entitlement error. The
traversal ends in a generic `RequestException` (no remediation hint)
which no handler in `main` catches, so the extraction dies with an
uncaught generic request failure rather than the distinguished
entitlement report the claim promises for 401 or 403. -/
theorem C4_entitlement_gap_counterexample :
    isEntitlementRaise (fetch_dynamic_groups dyn403Server 100 5).termination = false ∧
    (fetch_dynamic_groups dyn403Server 100 5).termination = .raised .requestException ∧
    dyn_main dyn403Server 100 5 = .uncaughtException .requestException := by
  decide

/-- C6 (amended): the applications strategy reacts to a page-level
fetch failure by logging and breaking — the traversal ends normally,
yielding exactly the items of the pages fetched before the failure, and
its `except Exception` block has no re-raise path at all; but the
dynamic-groups strategy is different: it logs and re-raises every
page-level request failure, generic `RequestException` included, so the
entitlement-gap `PermissionError` is not the single exception to
early-termination that the claim makes it. -/
theorem C6_page_failure_handling
    (appsServer : Nat → ReqOutcome AppsPage) (page : AppsPage) (limit fuel : Nat)
    (h0 : appsServer 0 = .ok page)
    (hne : ¬ page.applications.isEmpty = true)
    (hmore : ¬ page.total?.getD 0 ≤ limit)
    (h1 : appsServer limit = .exn)
    (hfuel : 2 ≤ fuel)
    (dynServer : Nat → DynHttp) (dlimit dfuel : Nat)
    (hd : dynServer 0 = .netError) (hdfuel : 1 ≤ dfuel) :
    fetch_applications appsServer limit fuel =
      ⟨page.applications.map deriveAppId, [0, limit], true⟩ ∧
    fetch_dynamic_groups dynServer dlimit dfuel =
      ⟨[], [0], .raised .requestException⟩ := by
  constructor
  · obtain ⟨n, rfl⟩ : ∃ n, fuel = n + 2 := ⟨fuel - 2, by omega⟩
    unfold fetch_applications
    rw [apps_loop_step appsServer limit (n + 1) 0 page h0 hne (by simpa using hmore)]
    rw [Nat.zero_add]
    rw [apps_loop_exn appsServer limit n limit h1]
    simp
  · obtain ⟨m, rfl⟩ : ∃ m, dfuel = m + 1 := ⟨dfuel - 1, by omega⟩
    unfold fetch_dynamic_groups
    exact dyn_loop_netError dynServer dlimit m 0 hd

/-- Witness for C6: applications oracle failing on its second page,
dynamic-groups oracle failing on its first. -/
theorem C6_page_failure_handling_witness :
    appsFailPage2Server 0 = .ok ⟨[sampleApp], some 1000⟩ ∧
    (¬ (⟨[sampleApp], some 1000⟩ : AppsPage).applications.isEmpty = true) ∧
    (¬ (⟨[sampleApp], some 1000⟩ : AppsPage).total?.getD 0 ≤ 100) ∧
    appsFailPage2Server 100 = .exn ∧
    dynNetErrorServer 0 = .netError ∧
    (fetch_applications appsFailPage2Server 100 2 =
        ⟨List.map deriveAppId [sampleApp], [0, 100], true⟩ ∧
      fetch_dynamic_groups dynNetErrorServer 100 1 =
        ⟨[], [0], .raised .requestException⟩) :=
  ⟨by decide, by decide, by decide, by decide, rfl,
    C6_page_failure_handling appsFailPage2Server ⟨[sampleApp], some 1000⟩ 100 2
      (by decide) (by decide) (by decide) (by decide) (by decide)
      dynNetErrorServer 100 1 rfl (by decide)⟩

/-- Counterexample to C6 as stated: a non-entitlement page-level
failure does not always terminate the yielded sequence early. Against
the dynamic-groups endpoint whose first page succeeds (1000 records
reported) and whose second request raises a transport error, the
strategy re-raises the generic `RequestException` — it does not break —
although the failure is not an entitlement-gap authorization error. -/
theorem C6_page_failure_handling_counterexample :
    (fetch_dynamic_groups dynFailPage2Server 100 5).termination
      = .raised .requestException ∧
    isEntitlementRaise (fetch_dynamic_groups dynFailPage2Server 100 5).termination
      = false := by
  decide

end IamVision
